import Mathlib

/-!
Verification development for the terabox-video-scrapping repository.

The definitions below are a shallow embedding of the repository's
download-link resolution and streaming-proxy core:

* `src/app/api/get-link/route.ts` — the `GET` route handler, its module
  constants (`DEFAULT_HEADERS`, `VALID_ID_REGEX`, `CACHE_TTL`), and its
  helpers `getDownloadLink` and `fetchWithTimeout`.  Network I/O is
  represented by a stubbed `Upstream` value describing what each of the
  three possible fetches would return; `Date.now()` is an explicit `now`
  parameter; thrown JavaScript values are `JSThrown` carried in `Except`.
* the alternate route variant (an unnamed source file) — only its
  upstream-header construction (`CLIENT_HEADERS_TO_FORWARD`,
  the forward/merge logic around its file fetch) is embedded, as
  `part1FetchHeaders`.
* `extractSurlId` from `src/app/page.tsx` (identical in the unnamed
  page variant), parameterised by the host `URL` constructor, plus a
  concrete model `parseJsUrl` of that host primitive for evaluation.

Header collections are association lists; `headerGet` is the
case-insensitive lookup of the `Headers` web API, `hset` its `set`
(the position of overwritten entries is not observable through
`headerGet` and is not modelled).  JavaScript object literals keep
case-sensitive keys, modelled by `objSet`/`objMerge`.
-/

namespace Terabox

/-- A JSON-ish value as produced by `NextResponse.json` bodies. -/
inductive JsonVal where
  | str (s : String)
  | num (n : Nat)
  | jsUndefined
deriving DecidableEq, Repr

/-- A value thrown in JavaScript: an `Error` with a message, or any other value. -/
inductive JSThrown where
  | error (message : String)
  | other
deriving DecidableEq, Repr

/-- The catch block of the route: `error instanceof Error ? error.message : 'Server error'`. -/
def jsMessage : JSThrown → String
  | .error m => m
  | .other => "Server error"

/-- The response produced by the route handler. -/
inductive RouteResponse where
  | json (status : Nat) (fields : List (String × JsonVal)) (headers : List (String × String))
  | redirect (status : Nat) (location : String) (headers : List (String × String))
  | empty (status : Nat) (headers : List (String × String))
  | stream (status : Nat) (headers : List (String × String)) (body : String)
deriving DecidableEq, Repr

def RouteResponse.status : RouteResponse → Nat
  | .json s _ _ => s
  | .redirect s _ _ => s
  | .empty s _ => s
  | .stream s _ _ => s

def RouteResponse.headersOf : RouteResponse → List (String × String)
  | .json _ _ h => h
  | .redirect _ _ h => h
  | .empty _ h => h
  | .stream _ h _ => h

/-- `interface TeraboxFile` of route.ts. -/
structure TeraboxFile where
  fs_id : String
  filename : String
  size : Nat
  md5 : String
deriving DecidableEq, Repr

/-- `interface TeraboxMetadata` of route.ts. -/
structure TeraboxMetadata where
  shareid : String
  uk : String
  sign : String
  timestamp : String
  list : List TeraboxFile
deriving DecidableEq, Repr

/-- `interface TeraboxDownloadData` of route.ts (both fields optional). -/
structure TeraboxDownloadData where
  downloadLink : Option String
  error : Option String
deriving DecidableEq, Repr

/-- What a stubbed `fetch` inside `fetchWithTimeout` does: respond with a
status and an (already JSON-parsed) body plus the `response.text()` used in
the error message, abort on timeout, or throw. -/
inductive FetchReply (α : Type) where
  | reply (status : Nat) (body : α) (errText : String)
  | abort
  | netThrow (e : JSThrown)
deriving DecidableEq, Repr

/-- `Response.ok`: status in the 2xx range. -/
def statusOk (s : Nat) : Bool := decide (200 ≤ s) && decide (s < 300)

/-- `fetchWithTimeout` of route.ts over a stubbed fetch outcome: a non-ok
response throws `HTTP error! status: ..., details: ...`, an abort throws
`Request timed out`, any other thrown value is rethrown. -/
def fetchWithTimeout {α : Type} : FetchReply α → Except JSThrown α
  | .reply status body errText =>
      if statusOk status then .ok body
      else .error (.error ("HTTP error! status: " ++ toString status ++ ", details: " ++ errText))
  | .abort => .error (.error "Request timed out")
  | .netThrow e => .error e

/-- A stubbed reply to the direct file fetch (`fetch(downloadLink, ...)`). -/
structure FileReply where
  status : Nat
  headers : List (String × String)
  statusText : String
  body : String
deriving DecidableEq, Repr

inductive FileFetchReply where
  | reply (r : FileReply)
  | netThrow (e : JSThrown)
deriving DecidableEq, Repr

/-- The stubbed upstream: what each of the three fetches of the handler
would observe (the get-info call, the get-downloadp call, the file fetch). -/
structure Upstream where
  info : FetchReply TeraboxMetadata
  download : FetchReply TeraboxDownloadData
  file : FileFetchReply
deriving DecidableEq, Repr

/-- A cache value of route.ts: `{ expiry: number; link: string; metadata?: TeraboxFile }`. -/
structure CacheEntry where
  expiry : Nat
  link : String
  metadata : Option TeraboxFile
deriving DecidableEq, Repr

/-- The module-level `cache` Map, as an association list keyed by the share id. -/
abbrev CacheMap := List (String × CacheEntry)

/-- `cache.get(id)`. -/
def mapGet (m : CacheMap) (k : String) : Option CacheEntry :=
  (m.find? (fun p => p.1 == k)).map Prod.snd

/-- `cache.set(id, entry)`: overwrite in place if the key exists, else append. -/
def mapSet (m : CacheMap) (k : String) (e : CacheEntry) : CacheMap :=
  if m.any (fun p => p.1 == k) then
    m.map (fun p => if p.1 == k then (k, e) else p)
  else m ++ [(k, e)]

/-- The inbound HTTP request seen by the handler: its method, the parsed
query string of `request.url`, and its header list. -/
structure HttpRequest where
  method : String
  search : List (String × String)
  headers : List (String × String)
deriving DecidableEq, Repr

/-- `searchParams.get(k)`: first value for the (case-sensitive) name. -/
def searchGet (ps : List (String × String)) (k : String) : Option String :=
  (ps.find? (fun p => p.1 == k)).map Prod.snd

/-- ASCII lowercasing of a character (header names are ASCII). -/
def lowerChar (c : Char) : Char :=
  if 65 ≤ c.toNat ∧ c.toNat ≤ 90 then Char.ofNat (c.toNat + 32) else c

/-- `toLowerCase()` on an (ASCII) header name. -/
def lowerAscii (s : String) : String := ⟨s.data.map lowerChar⟩

/-- `Headers.get(name)`: case-insensitive lookup. -/
def headerGet (hs : List (String × String)) (n : String) : Option String :=
  (hs.find? (fun p => lowerAscii p.1 == lowerAscii n)).map Prod.snd

/-- `Headers.set(name, value)`: replace any entry with that (case-insensitive)
name by the new value. -/
def hset (hs : List (String × String)) (k v : String) : List (String × String) :=
  hs.filter (fun p => !(lowerAscii p.1 == lowerAscii k)) ++ [(k, v)]

/-- Assignment into a plain JavaScript object: case-sensitive key overwrite. -/
def objSet (o : List (String × String)) (k v : String) : List (String × String) :=
  if o.any (fun p => p.1 == k) then
    o.map (fun p => if p.1 == k then (k, v) else p)
  else o ++ [(k, v)]

/-- Object spread `{...a, ...b}`. -/
def objMerge (a b : List (String × String)) : List (String × String) :=
  b.foldl (fun acc p => objSet acc p.1 p.2) a

/-- `VALID_ID_REGEX = /^[A-Za-z0-9_-]{6,}$/`, character class. -/
def validIdChar (c : Char) : Bool := c.isAlpha || c.isDigit || c = '_' || c = '-'

/-- `VALID_ID_REGEX.test id`: at least six characters, all in the class. -/
def validId (s : String) : Bool := decide (6 ≤ s.length) && s.data.all validIdChar

/-- `!id || !VALID_ID_REGEX.test(id)`: the id is missing, empty (falsy) or fails the regex. -/
def idRejected : Option String → Bool
  | none => true
  | some s => s == "" || !validId s

/-- `DEFAULT_HEADERS` of route.ts. -/
def DEFAULT_HEADERS : List (String × String) :=
  [("User-Agent",
    "Mozilla/5.0 (Windows NT 10.0; Win64; x64) AppleWebKit/537.36 (KHTML, like Gecko) Chrome/125.0.0.0 Safari/537.36"),
   ("Referer", "https://terabox.hnn.workers.dev/")]

/-- `CACHE_TTL = 300000` (five minutes, in milliseconds). -/
def CACHE_TTL : Nat := 300000

def corsHeaders : List (String × String) :=
  [("Access-Control-Allow-Origin", "*"),
   ("Access-Control-Allow-Methods", "GET, OPTIONS"),
   ("Access-Control-Allow-Headers", "Content-Type, Range")]

def corsPreflightHeaders : List (String × String) :=
  corsHeaders ++ [("Access-Control-Max-Age", "86400")]

def cors500Headers : List (String × String) :=
  [("Access-Control-Allow-Origin", "*"),
   ("Access-Control-Allow-Methods", "GET, OPTIONS"),
   ("Content-Type", "application/json")]

def jsonOptStr : Option String → JsonVal
  | some s => .str s
  | none => .jsUndefined

def jsonOptNum : Option Nat → JsonVal
  | some n => .num n
  | none => .jsUndefined

/-- The apostrophe character, used in `Content-Disposition` and the
`encodeURIComponent` unreserved set. -/
def aposChar : Char := Char.ofNat 39

def hexDigit (n : Nat) : Char :=
  if n < 10 then Char.ofNat (48 + n) else Char.ofNat (55 + n)

def percentEncodeByte (b : Nat) : String :=
  "%" ++ (hexDigit ((b / 16) % 16)).toString ++ (hexDigit (b % 16)).toString

/-- UTF-8 bytes of a code point, for `encodeURIComponent`. -/
def utf8Bytes (n : Nat) : List Nat :=
  if n < 128 then [n]
  else if n < 2048 then [192 + n / 64, 128 + n % 64]
  else if n < 65536 then [224 + n / 4096, 128 + (n / 64) % 64, 128 + n % 64]
  else [240 + n / 262144, 128 + (n / 4096) % 64, 128 + (n / 64) % 64, 128 + n % 64]

/-- The characters `encodeURIComponent` leaves unescaped. -/
def isUnreservedURIChar (c : Char) : Bool :=
  c.isAlpha || c.isDigit || c = '-' || c = '_' || c = '.' || c = '!' ||
  c = '~' || c = '*' || c = aposChar || c = '(' || c = ')'

/-- The host `encodeURIComponent` function. -/
def encodeURIComponent (s : String) : String :=
  s.toList.foldl
    (fun acc c =>
      if isUnreservedURIChar c then acc ++ c.toString
      else acc ++ String.join ((utf8Bytes c.toNat).map percentEncodeByte)) ""

/-- The headers of the file fetch in route.ts:
`{...DEFAULT_HEADERS, Cookie: request.headers.get('Cookie') || '', Range: rangeHeader || ''}`. -/
def routeFetchHeaders (reqHeaders : List (String × String)) : List (String × String) :=
  objSet (objSet DEFAULT_HEADERS "Cookie" ((headerGet reqHeaders "Cookie").getD ""))
    "Range" ((headerGet reqHeaders "range").getD "")

/-- The upstream GET issued for the download link: its URL and its headers. -/
structure FetchRequest where
  url : String
  headers : List (String × String)
deriving DecidableEq, Repr

/-- `['content-length', 'content-range']` of the copy loop in route.ts. -/
def contentHeaderNames : List String := ["content-length", "content-range"]

/-- The `fileResponse.headers.forEach` loop of route.ts: copy
`Content-Length`/`Content-Range` (case-insensitive) onto the prepared headers. -/
def copyContentHeaders (base upstreamHeaders : List (String × String)) :
    List (String × String) :=
  upstreamHeaders.foldl
    (fun acc p => if lowerAscii p.1 ∈ contentHeaderNames then hset acc p.1 p.2 else acc) base

/-- The `new Headers({...})` literal prepared for the streaming response. -/
def baseStreamHeaders (fileData : TeraboxFile) (fr : FileReply) : List (String × String) :=
  [("Content-Type", (headerGet fr.headers "Content-Type").getD "application/octet-stream"),
   ("Content-Disposition",
     "attachment; filename*=UTF-8" ++ aposChar.toString ++ aposChar.toString ++
       encodeURIComponent fileData.filename),
   ("Accept-Ranges", "bytes"),
   ("Access-Control-Allow-Origin", "*"),
   ("Access-Control-Allow-Methods", "GET, OPTIONS"),
   ("Access-Control-Allow-Headers", "Content-Type, Range"),
   ("Cache-Control", "public, max-age=3600"),
   ("X-File-Name", encodeURIComponent fileData.filename),
   ("X-File-Size", toString fileData.size),
   ("X-File-Md5", fileData.md5)]

/-- The full header set of the streaming response of route.ts. -/
def buildStreamHeaders (fileData : TeraboxFile) (fr : FileReply) : List (String × String) :=
  copyContentHeaders (baseStreamHeaders fileData fr) fr.headers

/-- `getDownloadLink` of route.ts over the stubbed POST: errors of
`fetchWithTimeout` propagate; a missing or empty (falsy) `downloadLink`
throws `No download link received from upstream`. -/
def getDownloadLink (up : Upstream) : Except JSThrown String :=
  match fetchWithTimeout up.download with
  | .error e => .error e
  | .ok resp =>
    match resp.downloadLink with
    | none => .error (.error "No download link received from upstream")
    | some l =>
      if l = "" then .error (.error "No download link received from upstream")
      else .ok l

instance {ε α : Type} [DecidableEq ε] [DecidableEq α] : DecidableEq (Except ε α) :=
  fun a b =>
    match a, b with
    | .ok x, .ok y =>
      if h : x = y then .isTrue (congrArg Except.ok h)
      else .isFalse (fun hh => h (Except.ok.inj hh))
    | .error x, .error y =>
      if h : x = y then .isTrue (congrArg Except.error h)
      else .isFalse (fun hh => h (Except.error.inj hh))
    | .ok _, .error _ => .isFalse (fun hh => Except.noConfusion hh)
    | .error _, .ok _ => .isFalse (fun hh => Except.noConfusion hh)

/-- The instrumented outcome of one handler body run: the value returned or
thrown, the cache afterwards, how many of the two `fetchWithTimeout` upstream
calls were made, and the file fetch that was issued, if any. -/
structure InnerOutcome where
  result : Except JSThrown RouteResponse
  cache : CacheMap
  infoCalls : Nat
  downloadCalls : Nat
  fileFetch : Option FetchRequest
deriving DecidableEq, Repr

/-- route.ts after a successful resolution (`cache.set` onwards): the cache
write, the `format === 'json'` return, the OPTIONS return, and the streaming
file fetch with its status check and response-header construction. -/
def afterResolve (req : HttpRequest) (idv : String) (format : Option String)
    (cache : CacheMap) (now : Nat) (up : Upstream) (link : String)
    (fileData : TeraboxFile) : InnerOutcome :=
  let cache2 := mapSet cache idv ⟨now + CACHE_TTL, link, some fileData⟩
  if format = some "json" then
    ⟨.ok (.json 200
        [("downloadUrl", .str link), ("fileName", .str fileData.filename),
         ("fileSize", .num fileData.size)] corsHeaders),
      cache2, 1, 1, none⟩
  else if req.method = "OPTIONS" then
    ⟨.ok (.empty 204 corsPreflightHeaders), cache2, 1, 1, none⟩
  else
    let freq : FetchRequest := ⟨link, routeFetchHeaders req.headers⟩
    match up.file with
    | .netThrow e => ⟨.error e, cache2, 1, 1, some freq⟩
    | .reply fr =>
      if statusOk fr.status = false ∧ fr.status ≠ 206 then
        ⟨.error (.error ("Failed to retrieve file: " ++ toString fr.status ++ " " ++
            fr.statusText)),
          cache2, 1, 1, some freq⟩
      else
        ⟨.ok (.stream fr.status (buildStreamHeaders fileData fr) fr.body),
          cache2, 1, 1, some freq⟩

/-- The cache-miss path of route.ts: the get-info call, the
`!metadata?.list?.[0]?.fs_id` validation, `getDownloadLink`, then
`afterResolve`. -/
def missOutcome (req : HttpRequest) (idv : String) (format : Option String)
    (cache : CacheMap) (now : Nat) (up : Upstream) : InnerOutcome :=
  match fetchWithTimeout up.info with
  | .error e => ⟨.error e, cache, 1, 0, none⟩
  | .ok metadata =>
    match metadata.list with
    | [] => ⟨.error (.error "Invalid file metadata"), cache, 1, 0, none⟩
    | fileData :: _ =>
      if fileData.fs_id = "" then
        ⟨.error (.error "Invalid file metadata"), cache, 1, 0, none⟩
      else
        match getDownloadLink up with
        | .error e => ⟨.error e, cache, 1, 1, none⟩
        | .ok link => afterResolve req idv format cache now up link fileData

/-- The body of `GET` in route.ts (everything inside the try block), with the
cache, the clock and the upstream stub explicit. -/
def GETinner (req : HttpRequest) (cache : CacheMap) (now : Nat) (up : Upstream) :
    InnerOutcome :=
  let id := searchGet req.search "id"
  let format := searchGet req.search "format"
  if idRejected id then
    ⟨.ok (.json 400 [("error", .str "Invalid ID")] []), cache, 0, 0, none⟩
  else
    let idv := id.getD ""
    match mapGet cache idv with
    | some c =>
      if now < c.expiry then
        if format = some "json" then
          ⟨.ok (.json 200
              [("downloadUrl", .str c.link),
               ("fileName", jsonOptStr (c.metadata.map (fun m => m.filename))),
               ("fileSize", jsonOptNum (c.metadata.map (fun m => m.size)))]
              corsHeaders),
            cache, 0, 0, none⟩
        else
          ⟨.ok (.redirect 307 c.link corsHeaders), cache, 0, 0, none⟩
      else missOutcome req idv format cache now up
    | none => missOutcome req idv format cache now up

/-- The catch block of `GET`: a 500 JSON response carrying the thrown
message (or `Server error` for non-Error values) with CORS headers. -/
def errorResponse (e : JSThrown) : RouteResponse :=
  .json 500 [("error", .str (jsMessage e))] cors500Headers

/-- The observable outcome of one `GET` invocation. -/
structure GETOutcome where
  response : RouteResponse
  cache : CacheMap
  infoCalls : Nat
  downloadCalls : Nat
  fileFetch : Option FetchRequest
deriving DecidableEq, Repr

/-- The exported `GET` handler of route.ts: the body wrapped in the single
try/catch that converts every thrown value into a 500 JSON response. -/
def GET (req : HttpRequest) (cache : CacheMap) (now : Nat) (up : Upstream) :
    GETOutcome :=
  let o := GETinner req cache now up
  { response := match o.result with
      | .ok r => r
      | .error e => errorResponse e,
    cache := o.cache, infoCalls := o.infoCalls, downloadCalls := o.downloadCalls,
    fileFetch := o.fileFetch }

/-- `cached && cached.expiry > Date.now()`: the cache-hit test of route.ts. -/
def isHit (cache : CacheMap) (idv : String) (now : Nat) : Bool :=
  match mapGet cache idv with
  | some c => decide (now < c.expiry)
  | none => false

/-- The get-info call fails with a non-2xx status or a timeout
(the failure modes named by the spec). -/
def infoFails (up : Upstream) : Bool :=
  match up.info with
  | .reply s _ _ => !statusOk s
  | .abort => true
  | .netThrow _ => false

/-- The value `fetchWithTimeout` throws for a failing get-info call. -/
def infoError (up : Upstream) : JSThrown :=
  match up.info with
  | .reply s _ t => .error ("HTTP error! status: " ++ toString s ++ ", details: " ++ t)
  | .abort => .error "Request timed out"
  | .netThrow e => e

/-- The whole two-call resolution succeeds on the stub: get-info is ok with a
first file carrying a non-empty `fs_id`, and get-downloadp yields a non-empty
link. -/
def resolvesOk (up : Upstream) : Bool :=
  match fetchWithTimeout up.info with
  | .error _ => false
  | .ok md =>
    match md.list with
    | [] => false
    | f :: _ =>
      if f.fs_id = "" then false
      else match getDownloadLink up with
        | .ok _ => true
        | .error _ => false

/-- The first listed file of a successful get-info reply. -/
def resolvedFile (up : Upstream) : TeraboxFile :=
  match fetchWithTimeout up.info with
  | .ok md => md.list.headD ⟨"", "", 0, ""⟩
  | .error _ => ⟨"", "", 0, ""⟩

/-- The download link of a successful resolution. -/
def resolvedLink (up : Upstream) : String :=
  match getDownloadLink up with
  | .ok l => l
  | .error _ => ""

/-! ### The alternate route variant (unnamed source file)

Only its upstream-header construction for the file fetch is embedded: the
`CLIENT_HEADERS_TO_FORWARD` allow-list, the name-normalising forward loop,
the `delete forwardHeaders['Range']` step when the client sent no range, and
the final `{...DEFAULT_HEADERS, ...forwardHeaders, 'X-Requested-With': ...}`
merge.  Its `DEFAULT_HEADERS` contains `Cookie: ndut_fm=${Date.now()}`,
hence the explicit `now` parameter. -/

def CLIENT_HEADERS_TO_FORWARD : List String :=
  ["cookie", "range", "if-range", "sec-fetch-dest", "sec-fetch-mode",
   "sec-fetch-site", "sec-ch-ua", "sec-ch-ua-mobile", "x-requested-with",
   "accept-encoding", "sec-ch-ua-platform"]

/-- The name normalisation of the forward loop in the alternate variant. -/
def normalizeForwardName (h : String) : String :=
  if lowerAscii h = "if-range" then "If-Range"
  else if lowerAscii h = "cookie" then "Cookie"
  else if lowerAscii h = "range" then "Range"
  else if lowerAscii h = "sec-fetch-dest" then "Sec-Fetch-Dest"
  else if lowerAscii h = "sec-fetch-mode" then "Sec-Fetch-Mode"
  else if lowerAscii h = "sec-fetch-site" then "Sec-Fetch-Site"
  else if lowerAscii h = "sec-ch-ua" then "Sec-CH-UA"
  else if lowerAscii h = "sec-ch-ua-mobile" then "Sec-CH-UA-Mobile"
  else if lowerAscii h = "sec-ch-ua-platform" then "Sec-CH-UA-Platform"
  else h

/-- The forward loop: each allow-listed client header that is present and
truthy (non-empty) is copied under its normalised name. -/
def forwardHeaders (reqHeaders : List (String × String)) : List (String × String) :=
  CLIENT_HEADERS_TO_FORWARD.foldl
    (fun acc h =>
      match headerGet reqHeaders h with
      | some v => if v = "" then acc else objSet acc (normalizeForwardName h) v
      | none => acc) []

def objDelete (o : List (String × String)) (k : String) : List (String × String) :=
  o.filter (fun p => !(p.1 == k))

def DEFAULT_HEADERS_P1 (now : Nat) : List (String × String) :=
  [("User-Agent",
    "Mozilla/5.0 (Windows NT 10.0; Win64; x64) AppleWebKit/537.36 (KHTML, like Gecko) Chrome/125.0.0.0 Safari/537.36"),
   ("Referer", "https://www.terabox.com/"),
   ("Origin", "https://www.terabox.com"),
   ("Cookie", "ndut_fm=" ++ toString now)]

/-- The headers of the file fetch in the alternate route variant. -/
def part1FetchHeaders (reqHeaders : List (String × String)) (now : Nat) :
    List (String × String) :=
  let rangeHeader := headerGet reqHeaders "range"
  let fwd0 := forwardHeaders reqHeaders
  let fwd := if rangeHeader = none ∨ rangeHeader = some "" then objDelete fwd0 "Range"
             else fwd0
  objMerge (objMerge (DEFAULT_HEADERS_P1 now) fwd) [("X-Requested-With", "XMLHttpRequest")]

/-! ### The identifier extractor of the page components

`extractSurlId` of `src/app/page.tsx` (the unnamed page variant is
identical): parse with the host `URL` constructor, then
`urlObj.searchParams.get("surl") || url.split("/").pop()?.split("?")[0] || null`
with JavaScript falsiness for the empty string, returning `null` when the
constructor throws. -/

/-- The result of the host `URL` constructor that the extractor consumes:
only `searchParams` is read. -/
structure JSUrl where
  searchParams : List (String × String)
deriving DecidableEq, Repr

/-- JavaScript `String.prototype.split` on a non-empty separator, by
structural recursion (fuel = input length) so that concrete instances
evaluate inside the kernel. -/
def splitFuel (sep : List Char) : Nat → List Char → List Char → List (List Char)
  | 0, l, acc => [acc.reverse ++ l]
  | _ + 1, [], acc => [acc.reverse]
  | n + 1, c :: rest, acc =>
    if sep.isPrefixOf (c :: rest) then
      acc.reverse :: splitFuel sep n ((c :: rest).drop sep.length) []
    else splitFuel sep n rest (c :: acc)

/-- `s.split(sep)` of JavaScript (for the non-empty separators the code uses). -/
def strSplitOn (s sep : String) : List String :=
  if sep.data.isEmpty then [s]
  else (splitFuel sep.data (s.data.length + 1) s.data []).map (fun l => ⟨l⟩)

/-- `URLSearchParams.get`: first value for the name, case-sensitive. -/
def searchParamsGet (ps : List (String × String)) (k : String) : Option String :=
  (ps.find? (fun p => p.1 == k)).map Prod.snd

/-- JavaScript `a || b` over nullable strings: the empty string is falsy. -/
def truthyOr (a b : Option String) : Option String :=
  match a with
  | some s => if s = "" then b else some s
  | none => b

/-- `url.split("/").pop()?.split("?")[0]` — the last slash-segment of the raw
string, stripped of a query suffix. -/
def lastSegment (url : String) : String :=
  (strSplitOn ((strSplitOn url "/").getLastD "") "?").headD ""

/-- `extractSurlId` of page.tsx, parameterised by the host URL constructor. -/
def extractSurlId (parseURL : String → Option JSUrl) (url : String) : Option String :=
  match parseURL url with
  | none => none
  | some urlObj =>
    truthyOr (searchParamsGet urlObj.searchParams "surl")
      (truthyOr (some (lastSegment url)) none)

/-- Splits a query string `k1=v1&k2=v2` into pairs (the part of the host URL
constructor the extractor can observe). -/
def parseQueryString (q : String) : List (String × String) :=
  if q = "" then []
  else
    (strSplitOn q "&").map (fun kv =>
      match strSplitOn kv "=" with
      | [] => ("", "")
      | k :: rest => (k, String.intercalate "=" rest))

/-- Models the host (WHATWG) `URL` constructor, a browser primitive rather
than repository code: it accepts absolute URLs written as an alphabetic
scheme, `://`, and a non-empty remainder, exposing the query part after the
first `?` as `searchParams`; every string without such a scheme prefix (for
example one containing no colon at all) makes the constructor throw, which
the model renders as `none`. -/
def parseJsUrl (s : String) : Option JSUrl :=
  match strSplitOn s "://" with
  | scheme :: r1 :: rest =>
    if scheme ≠ "" ∧ scheme.data.all Char.isAlpha ∧ r1 ++ String.join rest ≠ "" then
      let remainder := String.intercalate "://" (r1 :: rest)
      match strSplitOn remainder "?" with
      | [] => some ⟨[]⟩
      | [_] => some ⟨[]⟩
      | _ :: qs => some ⟨parseQueryString (String.intercalate "?" qs)⟩
    else none
  | _ => none


/-! ### Helper lemmas -/

lemma validId_ne_empty (s : String) (h : validId s = true) : s ≠ "" := by
  intro hs
  rw [hs] at h
  exact absurd h (by decide)

lemma idRejected_of_valid (s : String) (h : validId s = true) :
    idRejected (some s) = false := by
  unfold idRejected
  have hne : (s == "") = false := by
    simpa using validId_ne_empty s h
  simp [hne, h]

lemma find?_map_replace (m : CacheMap) (k : String) (e : CacheEntry)
    (h : m.any (fun p => p.1 == k) = true) :
    (m.map (fun p => if p.1 == k then (k, e) else p)).find? (fun p => p.1 == k) =
      some (k, e) := by
  induction m with
  | nil => simp at h
  | cons a t ih =>
    by_cases ha : (a.1 == k) = true
    · simp only [List.map_cons, ha, if_true]
      rw [List.find?_cons_of_pos]
      simp
    · have ha2 : (a.1 == k) = false := by simpa using ha
      have ht : t.any (fun p => p.1 == k) = true := by
        have h2 := h
        rw [List.any_cons, ha2, Bool.false_or] at h2
        exact h2
      simp only [List.map_cons, ha2, Bool.false_eq_true, if_false]
      rw [List.find?_cons_of_neg _ (by simp [ha2]), ih ht]

lemma find?_append_new (m : CacheMap) (k : String) (e : CacheEntry)
    (h : m.any (fun p => p.1 == k) = false) :
    (m ++ [(k, e)]).find? (fun p => p.1 == k) = some (k, e) := by
  induction m with
  | nil => simp [List.find?]
  | cons a t ih =>
    have ha : (a.1 == k) = false := by
      by_contra hc
      simp only [Bool.not_eq_false] at hc
      simp [hc] at h
    have ht : t.any (fun p => p.1 == k) = false := by
      have h2 := h
      rw [List.any_cons, ha, Bool.false_or] at h2
      exact h2
    simp only [List.cons_append]
    rw [List.find?_cons_of_neg _ (by simp [ha]), ih ht]

lemma mapGet_mapSet_self (m : CacheMap) (k : String) (e : CacheEntry) :
    mapGet (mapSet m k e) k = some e := by
  unfold mapGet mapSet
  by_cases h : m.any (fun p => p.1 == k) = true
  · rw [if_pos h, find?_map_replace m k e h]
    rfl
  · have h2 : m.any (fun p => p.1 == k) = false := by
      cases hb : m.any (fun p => p.1 == k)
      · rfl
      · exact absurd hb h
    rw [if_neg h, find?_append_new m k e h2]
    rfl

lemma fetchWithTimeout_info_fail (up : Upstream) (h : infoFails up = true) :
    fetchWithTimeout up.info = .error (infoError up) := by
  cases hi : up.info with
  | reply s b t =>
    have hs : statusOk s = false := by
      unfold infoFails at h
      rw [hi] at h
      simpa using h
    unfold fetchWithTimeout infoError
    rw [hi]
    simp [hs]
  | abort =>
    unfold fetchWithTimeout infoError
    rw [hi]
  | netThrow e =>
    exfalso
    unfold infoFails at h
    rw [hi] at h
    simp at h

lemma missOutcome_ok (req : HttpRequest) (idv : String) (format : Option String)
    (cache : CacheMap) (now : Nat) (up : Upstream) (h : resolvesOk up = true) :
    missOutcome req idv format cache now up =
      afterResolve req idv format cache now up (resolvedLink up) (resolvedFile up) := by
  unfold resolvesOk at h
  unfold missOutcome resolvedLink resolvedFile
  cases hinfo : fetchWithTimeout up.info with
  | error e => rw [hinfo] at h; simp at h
  | ok md =>
    rw [hinfo] at h
    simp only at h ⊢
    cases hl : md.list with
    | nil => rw [hl] at h; simp at h
    | cons f t =>
      rw [hl] at h
      simp only at h ⊢
      by_cases hf : f.fs_id = ""
      · rw [if_pos hf] at h
        simp at h
      · rw [if_neg hf] at h ⊢
        cases hdl : getDownloadLink up with
        | error e => rw [hdl] at h; simp at h
        | ok l => simp

lemma GETinner_invalid (req : HttpRequest) (cache : CacheMap) (now : Nat)
    (up : Upstream) (h : idRejected (searchGet req.search "id") = true) :
    GETinner req cache now up =
      ⟨.ok (.json 400 [("error", .str "Invalid ID")] []), cache, 0, 0, none⟩ := by
  unfold GETinner
  simp [h]

lemma GETinner_miss (req : HttpRequest) (cache : CacheMap) (now : Nat)
    (up : Upstream) (idv : String)
    (hid : searchGet req.search "id" = some idv) (hv : validId idv = true)
    (hmiss : isHit cache idv now = false) :
    GETinner req cache now up =
      missOutcome req idv (searchGet req.search "format") cache now up := by
  unfold isHit at hmiss
  unfold GETinner
  rw [hid]
  simp only [idRejected_of_valid idv hv, Bool.false_eq_true, if_false, Option.getD_some]
  cases hc : mapGet cache idv with
  | none => simp
  | some c =>
    rw [hc] at hmiss
    simp only [decide_eq_false_iff_not] at hmiss
    simp [hmiss]

lemma GETinner_hit (req : HttpRequest) (cache : CacheMap) (now : Nat)
    (up : Upstream) (idv : String) (c : CacheEntry)
    (hid : searchGet req.search "id" = some idv) (hv : validId idv = true)
    (hc : mapGet cache idv = some c) (hexp : now < c.expiry) :
    GETinner req cache now up =
      (if searchGet req.search "format" = some "json" then
        ⟨.ok (.json 200
            [("downloadUrl", .str c.link),
             ("fileName", jsonOptStr (c.metadata.map (fun m => m.filename))),
             ("fileSize", jsonOptNum (c.metadata.map (fun m => m.size)))]
            corsHeaders),
          cache, 0, 0, none⟩
      else ⟨.ok (.redirect 307 c.link corsHeaders), cache, 0, 0, none⟩) := by
  unfold GETinner
  rw [hid]
  simp [idRejected_of_valid idv hv, hc, hexp]

/-- The last value among a header list whose lowercased name is `n`
(`n` itself lowercase): with `Headers.set`, the last copied value wins. -/
def lastLowerGet : List (String × String) → String → Option String
  | [], _ => none
  | p :: t, n =>
    match lastLowerGet t n with
    | some w => some w
    | none => if lowerAscii p.1 = n then some p.2 else none

lemma headerGet_hset (hs : List (String × String)) (k v n : String) :
    headerGet (hset hs k v) n =
      if lowerAscii k = lowerAscii n then some v else headerGet hs n := by
  unfold headerGet hset
  induction hs with
  | nil =>
    by_cases h : lowerAscii k = lowerAscii n
    · simp [List.find?, h]
    · have hb : (lowerAscii k == lowerAscii n) = false := by simp [beq_iff_eq, h]
      simp [List.find?, hb, h]
  | cons a t ih =>
    by_cases hak : lowerAscii a.1 = lowerAscii k
    · simp only [List.filter_cons, hak, beq_self_eq_true, Bool.not_true,
        Bool.false_eq_true, if_false]
      rw [ih]
      by_cases h : lowerAscii k = lowerAscii n
      · simp [h]
      · simp only [if_neg h]
        rw [List.find?_cons_of_neg]
        simp [beq_iff_eq, hak, h]
    · have hpred : (!(lowerAscii a.1 == lowerAscii k)) = true := by
        simp [beq_iff_eq, hak]
      simp only [List.filter_cons, hpred, if_true, List.cons_append]
      by_cases han : lowerAscii a.1 = lowerAscii n
      · have hkn : ¬(lowerAscii k = lowerAscii n) := fun hh => hak (han.trans hh.symm)
        rw [List.find?_cons_of_pos _ (by simp [han]), if_neg hkn,
          List.find?_cons_of_pos _ (by simp [han])]
      · rw [List.find?_cons_of_neg _ (by simp [beq_iff_eq, han]), ih]
        by_cases h : lowerAscii k = lowerAscii n
        · simp [h]
        · simp only [if_neg h]
          rw [List.find?_cons_of_neg _ (by simp [beq_iff_eq, han])]

lemma headerGet_copyContentHeaders (hs base : List (String × String)) (n : String)
    (hn : n ∈ contentHeaderNames) (hlow : lowerAscii n = n) :
    headerGet (copyContentHeaders base hs) n =
      (match lastLowerGet hs n with
       | some w => some w
       | none => headerGet base n) := by
  induction hs generalizing base with
  | nil => simp [copyContentHeaders, lastLowerGet]
  | cons p t ih =>
    unfold copyContentHeaders at ih ⊢
    simp only [List.foldl_cons]
    rw [ih]
    cases hlt : lastLowerGet t n with
    | some w => simp [lastLowerGet, hlt]
    | none =>
      simp only [lastLowerGet, hlt]
      by_cases hp : lowerAscii p.1 = n
      · have hmem : lowerAscii p.1 ∈ contentHeaderNames := by rw [hp]; exact hn
        rw [if_pos hmem, headerGet_hset, if_pos (by rw [hp, hlow]), if_pos hp]
      · by_cases hmem : lowerAscii p.1 ∈ contentHeaderNames
        · rw [if_pos hmem, headerGet_hset, if_neg (fun hh => hp (hh.trans hlow)),
            if_neg hp]
        · rw [if_neg hmem, if_neg hp]

lemma routeFetchHeaders_eq (hs : List (String × String)) :
    routeFetchHeaders hs = DEFAULT_HEADERS ++
      [("Cookie", (headerGet hs "Cookie").getD ""),
       ("Range", (headerGet hs "range").getD "")] := by
  rfl

lemma headerGet_routeFetchHeaders_range (hs : List (String × String)) :
    headerGet (routeFetchHeaders hs) "Range" =
      some ((headerGet hs "range").getD "") := by
  rfl

lemma headerGet_routeFetchHeaders_cookie (hs : List (String × String)) :
    headerGet (routeFetchHeaders hs) "Cookie" =
      some ((headerGet hs "Cookie").getD "") := by
  rfl

lemma objSet_keys (o : List (String × String)) (k v : String) :
    ∀ p ∈ objSet o k v, p.1 = k ∨ p.1 ∈ o.map Prod.fst := by
  intro p hp
  unfold objSet at hp
  split at hp
  · rcases List.mem_map.mp hp with ⟨q, hq, hqe⟩
    by_cases hqk : q.1 = k
    · left
      rw [← hqe]
      simp [hqk]
    · right
      have hb : (q.1 == k) = false := by simp [beq_iff_eq, hqk]
      rw [← hqe]
      simp only [hb, Bool.false_eq_true, if_false]
      exact List.mem_map_of_mem _ hq
  · rcases List.mem_append.mp hp with h | h
    · right
      exact List.mem_map_of_mem _ h
    · left
      simp only [List.mem_singleton] at h
      rw [h]

lemma objMerge_keys (a b : List (String × String)) :
    ∀ p ∈ objMerge a b, p.1 ∈ a.map Prod.fst ∨ p.1 ∈ b.map Prod.fst := by
  unfold objMerge
  induction b generalizing a with
  | nil =>
    intro p hp
    left
    exact List.mem_map_of_mem _ hp
  | cons q t ih =>
    intro p hp
    simp only [List.foldl_cons] at hp
    rcases ih (objSet a q.1 q.2) p hp with h | h
    · rcases List.mem_map.mp h with ⟨r, hr, hre⟩
      rcases objSet_keys a q.1 q.2 r hr with h1 | h1
      · right
        rw [← hre, h1]
        simp
      · left
        rw [← hre]
        exact h1
    · right
      simp only [List.map_cons]
      exact List.mem_cons_of_mem _ h

lemma headerGet_eq_none (l : List (String × String)) (n : String)
    (h : ∀ p ∈ l, ¬ (lowerAscii p.1 = lowerAscii n)) : headerGet l n = none := by
  unfold headerGet
  rw [List.find?_eq_none.mpr]
  · rfl
  · intro x hx
    simp only [beq_iff_eq]
    exact h x hx

lemma forwardAux_keys (hs : List (String × String)) (names : List String)
    (acc : List (String × String)) (S : List String)
    (hacc : ∀ p ∈ acc, p.1 ∈ S)
    (hnames : ∀ nm ∈ names, normalizeForwardName nm ∈ S) :
    ∀ p ∈ names.foldl
      (fun acc h =>
        match headerGet hs h with
        | some v => if v = "" then acc else objSet acc (normalizeForwardName h) v
        | none => acc) acc, p.1 ∈ S := by
  induction names generalizing acc with
  | nil => exact hacc
  | cons nm t ih =>
    intro p hp
    simp only [List.foldl_cons] at hp
    refine ih _ ?_ (fun x hx => hnames x (List.mem_cons_of_mem _ hx)) p hp
    intro q hq
    cases hg : headerGet hs nm with
    | none =>
      rw [hg] at hq
      exact hacc q hq
    | some v =>
      rw [hg] at hq
      simp only at hq
      by_cases hv : v = ""
      · rw [if_pos hv] at hq
        exact hacc q hq
      · rw [if_neg hv] at hq
        rcases objSet_keys acc (normalizeForwardName nm) v q hq with h1 | h1
        · rw [h1]
          exact hnames nm (List.mem_cons_self _ _)
        · rcases List.mem_map.mp h1 with ⟨r, hr, hre⟩
          rw [← hre]
          exact hacc r hr

lemma forwardHeaders_keys (hs : List (String × String)) :
    ∀ p ∈ forwardHeaders hs,
      p.1 ∈ CLIENT_HEADERS_TO_FORWARD.map normalizeForwardName := by
  unfold forwardHeaders
  exact forwardAux_keys hs CLIENT_HEADERS_TO_FORWARD []
    (CLIENT_HEADERS_TO_FORWARD.map normalizeForwardName)
    (by intro p hp; simp at hp)
    (fun nm hnm => List.mem_map_of_mem _ hnm)

lemma normalized_forward_names :
    CLIENT_HEADERS_TO_FORWARD.map normalizeForwardName =
      ["Cookie", "Range", "If-Range", "Sec-Fetch-Dest", "Sec-Fetch-Mode",
       "Sec-Fetch-Site", "Sec-CH-UA", "Sec-CH-UA-Mobile", "x-requested-with",
       "accept-encoding", "Sec-CH-UA-Platform"] := by
  rfl

lemma lower_ne_range_of_default_key (x : String)
    (hx : x ∈ ["User-Agent", "Referer", "Origin", "Cookie"]) :
    ¬ (lowerAscii x = "range") := by
  fin_cases hx <;> decide

lemma forward_key_not_range (x : String)
    (hx : x ∈ CLIENT_HEADERS_TO_FORWARD.map normalizeForwardName)
    (hne : x ≠ "Range") : ¬ (lowerAscii x = "range") := by
  rw [normalized_forward_names] at hx
  fin_cases hx
  all_goals first
    | exact absurd rfl hne
    | decide

lemma part1_no_range (hs : List (String × String)) (now : Nat)
    (h : headerGet hs "range" = none ∨ headerGet hs "range" = some "") :
    headerGet (part1FetchHeaders hs now) "Range" = none := by
  unfold part1FetchHeaders
  simp only
  rw [if_pos h]
  apply headerGet_eq_none
  intro p hp
  have hlr : lowerAscii "Range" = "range" := by decide
  rw [hlr]
  rcases objMerge_keys _ _ p hp with h1 | h1
  · rcases List.mem_map.mp h1 with ⟨r, hr, hre⟩
    rcases objMerge_keys _ _ r hr with h2 | h2
    · -- key of DEFAULT_HEADERS_P1
      rw [← hre]
      have hkeys : (DEFAULT_HEADERS_P1 now).map Prod.fst =
          ["User-Agent", "Referer", "Origin", "Cookie"] := by rfl
      rw [hkeys] at h2
      exact lower_ne_range_of_default_key r.1 h2
    · -- key of the forwarded headers after the Range delete
      rcases List.mem_map.mp h2 with ⟨q, hq, hqe⟩
      have hqmem : q ∈ forwardHeaders hs ∧ (!(q.1 == "Range")) = true := by
        unfold objDelete at hq
        exact List.mem_filter.mp hq
      have hkey := forwardHeaders_keys hs q hqmem.1
      have hne : q.1 ≠ "Range" := by
        intro hh
        have := hqmem.2
        rw [hh] at this
        simp at this
      rw [← hre, ← hqe]
      exact forward_key_not_range q.1 hkey hne
  · -- the X-Requested-With entry
    simp only [List.map_cons, List.map_nil, List.mem_singleton] at h1
    rw [h1]
    decide

lemma GET_response (req : HttpRequest) (cache : CacheMap) (now : Nat) (up : Upstream) :
    (GET req cache now up).response =
      (match (GETinner req cache now up).result with
       | .ok r => r
       | .error e => errorResponse e) := rfl

lemma GET_cache (req : HttpRequest) (cache : CacheMap) (now : Nat) (up : Upstream) :
    (GET req cache now up).cache = (GETinner req cache now up).cache := rfl

lemma GET_infoCalls (req : HttpRequest) (cache : CacheMap) (now : Nat) (up : Upstream) :
    (GET req cache now up).infoCalls = (GETinner req cache now up).infoCalls := rfl

lemma GET_downloadCalls (req : HttpRequest) (cache : CacheMap) (now : Nat) (up : Upstream) :
    (GET req cache now up).downloadCalls = (GETinner req cache now up).downloadCalls := rfl

lemma GET_fileFetch (req : HttpRequest) (cache : CacheMap) (now : Nat) (up : Upstream) :
    (GET req cache now up).fileFetch = (GETinner req cache now up).fileFetch := rfl

lemma isHit_true_elim (cache : CacheMap) (idv : String) (now : Nat)
    (h : isHit cache idv now = true) :
    ∃ c, mapGet cache idv = some c ∧ now < c.expiry := by
  unfold isHit at h
  cases hc : mapGet cache idv with
  | none => rw [hc] at h; simp at h
  | some c =>
    rw [hc] at h
    exact ⟨c, rfl, by simpa using h⟩

lemma missOutcome_infoCalls (req : HttpRequest) (idv : String) (format : Option String)
    (cache : CacheMap) (now : Nat) (up : Upstream) :
    (missOutcome req idv format cache now up).infoCalls = 1 := by
  unfold missOutcome afterResolve
  repeat' split
  all_goals rfl

lemma afterResolve_core (req : HttpRequest) (idv : String) (format : Option String)
    (cache : CacheMap) (now : Nat) (up : Upstream) (link : String)
    (fileData : TeraboxFile) :
    (afterResolve req idv format cache now up link fileData).infoCalls = 1 ∧
    (afterResolve req idv format cache now up link fileData).downloadCalls = 1 ∧
    (afterResolve req idv format cache now up link fileData).cache =
      mapSet cache idv ⟨now + CACHE_TTL, link, some fileData⟩ := by
  unfold afterResolve
  repeat' split
  all_goals exact ⟨rfl, rfl, rfl⟩

/-- A stub upstream on which both resolution calls succeed and the file host
replies 200 with the whole body. -/
def goodFile : TeraboxFile := ⟨"fsid1", "video.mp4", 10, "md5hash"⟩

def goodMeta : TeraboxMetadata := ⟨"share1", "uk1", "sign1", "ts1", [goodFile]⟩

def goodUp : Upstream :=
  ⟨.reply 200 goodMeta "", .reply 200 ⟨some "https://dl.example.com/file", none⟩ "",
   .reply ⟨200, [("Content-Type", "video/mp4"), ("Content-Length", "10")], "OK",
     "0123456789"⟩⟩

/-- A stub whose get-info call replies 500. -/
def badInfoUp : Upstream :=
  ⟨.reply 500 goodMeta "oops", .reply 200 ⟨some "https://dl.example.com/file", none⟩ "",
   .reply ⟨200, [], "OK", ""⟩⟩

/-- A stub replying 206 plus `Content-Range` to a ranged file fetch. -/
def rangeReply : FileReply :=
  ⟨206, [("Content-Range", "bytes 2-5/10"), ("Content-Length", "4")],
   "Partial Content", "2345"⟩

def rangeUp : Upstream :=
  ⟨.reply 200 goodMeta "", .reply 200 ⟨some "https://dl.example.com/file", none⟩ "",
   .reply rangeReply⟩

def req1 : HttpRequest := ⟨"GET", [("id", "abc123")], []⟩

/-! ### Claims -/

/-- Claim C6: for every request to the resolve endpoint whose id query
parameter is missing or fails `^[A-Za-z0-9_-]{6,}$`, the handler returns
HTTP 400 with body `{error: "Invalid ID"}` and performs no upstream call. -/
theorem c6_invalid_id_rejected (req : HttpRequest) (cache : CacheMap) (now : Nat)
    (up : Upstream) (h : idRejected (searchGet req.search "id") = true) :
    (GET req cache now up).response = .json 400 [("error", .str "Invalid ID")] [] ∧
    (GET req cache now up).infoCalls = 0 ∧
    (GET req cache now up).downloadCalls = 0 ∧
    (GET req cache now up).fileFetch = none ∧
    (GET req cache now up).cache = cache := by
  rw [GET_response, GET_infoCalls, GET_downloadCalls, GET_fileFetch, GET_cache,
    GETinner_invalid req cache now up h]
  exact ⟨rfl, rfl, rfl, rfl, rfl⟩

/-- Witness for C6 at the too-short id `"ab"`. -/
theorem c6_witness :
    idRejected (searchGet [("id", "ab")] "id") = true ∧
    (GET ⟨"GET", [("id", "ab")], []⟩ [] 0 goodUp).response =
      .json 400 [("error", .str "Invalid ID")] [] ∧
    (GET ⟨"GET", [("id", "ab")], []⟩ [] 0 goodUp).infoCalls = 0 := by
  have h := c6_invalid_id_rejected ⟨"GET", [("id", "ab")], []⟩ [] 0 goodUp (by decide)
  exact ⟨by decide, h.1, h.2.1⟩

/-- Claim C4: if the upstream metadata call fails (non-2xx status or timeout),
the handler fails with an error response and performs no cache write — the
cache holds the same entries afterwards. -/
theorem c4_info_failure_no_cache_write (req : HttpRequest) (cache : CacheMap)
    (now : Nat) (up : Upstream) (idv : String)
    (hid : searchGet req.search "id" = some idv) (hv : validId idv = true)
    (hmiss : isHit cache idv now = false) (hfail : infoFails up = true) :
    (GET req cache now up).response = errorResponse (infoError up) ∧
    (GET req cache now up).response.status = 500 ∧
    (GET req cache now up).cache = cache ∧
    (GET req cache now up).downloadCalls = 0 ∧
    (GET req cache now up).fileFetch = none := by
  rw [GET_response, GET_cache, GET_downloadCalls, GET_fileFetch,
    GETinner_miss req cache now up idv hid hv hmiss]
  unfold missOutcome
  rw [fetchWithTimeout_info_fail up hfail]
  exact ⟨rfl, rfl, rfl, rfl, rfl⟩

/-- Witness for C4: a stubbed 500 on the metadata call yields a 500 response
and leaves the (empty) cache untouched. -/
theorem c4_witness :
    infoFails badInfoUp = true ∧
    (GET req1 [] 0 badInfoUp).response.status = 500 ∧
    (GET req1 [] 0 badInfoUp).cache = [] ∧
    (GET req1 [] 0 badInfoUp).downloadCalls = 0 := by
  have h := c4_info_failure_no_cache_write req1 [] 0 badInfoUp "abc123" rfl
    (by decide) (by decide) (by decide)
  exact ⟨by decide, h.2.1, h.2.2.1, h.2.2.2.1⟩

/-- Claim C1: the two upstream calls happen exactly on a cache miss (no entry,
or entry expired); a hit performs no upstream I/O; a successful miss writes a
cache entry expiring `CACHE_TTL` after `now`, so that a second call before
that instant performs no upstream call and a call at or after it resolves
upstream again despite the stale entry. -/
theorem c1_resolve_cache_ttl (req : HttpRequest) (cache : CacheMap) (now : Nat)
    (up : Upstream) (idv : String)
    (hid : searchGet req.search "id" = some idv) (hv : validId idv = true) :
    (isHit cache idv now = true →
      (GET req cache now up).infoCalls = 0 ∧
      (GET req cache now up).downloadCalls = 0 ∧
      (GET req cache now up).fileFetch = none ∧
      (GET req cache now up).cache = cache) ∧
    (isHit cache idv now = false →
      (GET req cache now up).infoCalls = 1) ∧
    (isHit cache idv now = false → resolvesOk up = true →
      (GET req cache now up).downloadCalls = 1 ∧
      mapGet (GET req cache now up).cache idv =
        some ⟨now + CACHE_TTL, resolvedLink up, some (resolvedFile up)⟩ ∧
      (∀ now2 up2, now2 < now + CACHE_TTL →
        (GET req (GET req cache now up).cache now2 up2).infoCalls = 0 ∧
        (GET req (GET req cache now up).cache now2 up2).downloadCalls = 0) ∧
      (∀ now2 up2, now + CACHE_TTL ≤ now2 →
        (GET req (GET req cache now up).cache now2 up2).infoCalls = 1)) := by
  refine ⟨?_, ?_, ?_⟩
  · intro hhit
    rcases isHit_true_elim cache idv now hhit with ⟨c, hc, hexp⟩
    rw [GET_infoCalls, GET_downloadCalls, GET_fileFetch, GET_cache,
      GETinner_hit req cache now up idv c hid hv hc hexp]
    by_cases hf : searchGet req.search "format" = some "json"
    · rw [if_pos hf]; exact ⟨rfl, rfl, rfl, rfl⟩
    · rw [if_neg hf]; exact ⟨rfl, rfl, rfl, rfl⟩
  · intro hmiss
    rw [GET_infoCalls, GETinner_miss req cache now up idv hid hv hmiss]
    exact missOutcome_infoCalls req idv _ cache now up
  · intro hmiss hok
    have hrw := GETinner_miss req cache now up idv hid hv hmiss
    have hmo := missOutcome_ok req idv (searchGet req.search "format") cache now up hok
    have hcore := afterResolve_core req idv (searchGet req.search "format") cache now up
      (resolvedLink up) (resolvedFile up)
    have hcache : (GET req cache now up).cache =
        mapSet cache idv ⟨now + CACHE_TTL, resolvedLink up, some (resolvedFile up)⟩ := by
      rw [GET_cache, hrw, hmo]
      exact hcore.2.2
    have hentry : mapGet (GET req cache now up).cache idv =
        some ⟨now + CACHE_TTL, resolvedLink up, some (resolvedFile up)⟩ := by
      rw [hcache]
      exact mapGet_mapSet_self cache idv _
    refine ⟨?_, hentry, ?_, ?_⟩
    · rw [GET_downloadCalls, hrw, hmo]
      exact hcore.2.1
    · intro now2 up2 hlt
      rw [GET_infoCalls, GET_downloadCalls,
        GETinner_hit req (GET req cache now up).cache now2 up2 idv _ hid hv hentry hlt]
      by_cases hf : searchGet req.search "format" = some "json"
      · rw [if_pos hf]; exact ⟨rfl, rfl⟩
      · rw [if_neg hf]; exact ⟨rfl, rfl⟩
    · intro now2 up2 hge
      have hmiss2 : isHit (GET req cache now up).cache idv now2 = false := by
        unfold isHit
        rw [hentry]
        simp only [decide_eq_false_iff_not]
        omega
      rw [GET_infoCalls, GETinner_miss req (GET req cache now up).cache now2 up2 idv
        hid hv hmiss2]
      exact missOutcome_infoCalls req idv _ _ now2 up2

/-- Witness for C1: a first resolve at time 0 calls upstream, a second at
time 100 (within the five-minute TTL) does not, and one at time 300000 (the
TTL boundary) resolves upstream again. -/
theorem c1_witness :
    isHit ([] : CacheMap) "abc123" 0 = false ∧
    (GET req1 [] 0 goodUp).infoCalls = 1 ∧
    (GET req1 (GET req1 [] 0 goodUp).cache 100 badInfoUp).infoCalls = 0 ∧
    (GET req1 (GET req1 [] 0 goodUp).cache 300000 goodUp).infoCalls = 1 := by
  have h := c1_resolve_cache_ttl req1 [] 0 goodUp "abc123" rfl (by decide)
  have h3 := h.2.2 (by decide) (by decide)
  refine ⟨by decide, h.2.1 (by decide), (h3.2.2.1 100 badInfoUp (by decide)).1,
    h3.2.2.2 300000 goodUp (by decide)⟩

/-- Counterexample to claim C7 as stated: on an OPTIONS request with a valid
id and an empty cache the handler does return 204, but only after performing
both upstream resolution calls; and on a cache hit it returns a 307 redirect
instead of 204. -/
theorem c7_counterexample :
    (GET ⟨"OPTIONS", [("id", "abc123")], []⟩ [] 0 goodUp).response.status = 204 ∧
    (GET ⟨"OPTIONS", [("id", "abc123")], []⟩ [] 0 goodUp).infoCalls = 1 ∧
    (GET ⟨"OPTIONS", [("id", "abc123")], []⟩ [] 0 goodUp).downloadCalls = 1 ∧
    ¬ ((GET ⟨"OPTIONS", [("id", "abc123")], []⟩ [] 0 goodUp).infoCalls = 0) ∧
    (GET ⟨"OPTIONS", [("id", "abc123")], []⟩
        [("abc123", ⟨1000, "https://cached.example/x", none⟩)] 0 goodUp).response =
      .redirect 307 "https://cached.example/x" corsHeaders := by
  decide

/-- Claim C7 (amended): the OPTIONS check of the handler sits after the cache
check, the resolution and the cache write, so an OPTIONS request with a valid
id gets a 307 redirect on a cache hit (format unset), and on a cache miss the
handler performs the full two-call resolution and the cache write before
returning 204 with the preflight CORS headers. -/
theorem c7_options_after_resolution (req : HttpRequest) (cache : CacheMap)
    (now : Nat) (up : Upstream) (idv : String) (c : CacheEntry)
    (hm : req.method = "OPTIONS")
    (hid : searchGet req.search "id" = some idv) (hv : validId idv = true)
    (hfmt : searchGet req.search "format" ≠ some "json") :
    (mapGet cache idv = some c → now < c.expiry →
      (GET req cache now up).response = .redirect 307 c.link corsHeaders ∧
      (GET req cache now up).infoCalls = 0) ∧
    (isHit cache idv now = false → resolvesOk up = true →
      (GET req cache now up).response = .empty 204 corsPreflightHeaders ∧
      (GET req cache now up).infoCalls = 1 ∧
      (GET req cache now up).downloadCalls = 1 ∧
      (GET req cache now up).cache =
        mapSet cache idv ⟨now + CACHE_TTL, resolvedLink up, some (resolvedFile up)⟩) := by
  constructor
  · intro hc hexp
    rw [GET_response, GET_infoCalls,
      GETinner_hit req cache now up idv c hid hv hc hexp, if_neg hfmt]
    exact ⟨rfl, rfl⟩
  · intro hmiss hok
    rw [GET_response, GET_infoCalls, GET_downloadCalls, GET_cache,
      GETinner_miss req cache now up idv hid hv hmiss,
      missOutcome_ok req idv _ cache now up hok]
    unfold afterResolve
    rw [if_neg hfmt, if_pos hm]
    exact ⟨rfl, rfl, rfl, rfl⟩

/-- Witness for the amended C7 on a concrete OPTIONS request with an empty
cache and a succeeding stub upstream. -/
theorem c7_witness :
    (GET ⟨"OPTIONS", [("id", "fedcba")], []⟩ [] 0 rangeUp).response =
      .empty 204 corsPreflightHeaders ∧
    (GET ⟨"OPTIONS", [("id", "fedcba")], []⟩ [] 0 rangeUp).infoCalls = 1 ∧
    (GET ⟨"OPTIONS", [("id", "fedcba")], []⟩ [] 0 rangeUp).downloadCalls = 1 := by
  have h := (c7_options_after_resolution ⟨"OPTIONS", [("id", "fedcba")], []⟩ [] 0
    rangeUp "fedcba" ⟨0, "", none⟩ rfl rfl (by decide) (by decide)).2
    (by decide) (by decide)
  exact ⟨h.1, h.2.1, h.2.2.1⟩

/-- Claim C10: on the streaming path the upstream file fetch always carries a
`Cookie` header equal to the client's `Cookie` value — the empty string when
the client sent none — spread over the fixed `DEFAULT_HEADERS`. -/
theorem c10_cookie_forwarded (req : HttpRequest) (cache : CacheMap) (now : Nat)
    (up : Upstream) (idv : String)
    (hid : searchGet req.search "id" = some idv) (hv : validId idv = true)
    (hmiss : isHit cache idv now = false) (hok : resolvesOk up = true)
    (hfmt : searchGet req.search "format" ≠ some "json")
    (hm : req.method ≠ "OPTIONS") :
    (GET req cache now up).fileFetch =
      some ⟨resolvedLink up, routeFetchHeaders req.headers⟩ ∧
    headerGet (routeFetchHeaders req.headers) "Cookie" =
      some ((headerGet req.headers "Cookie").getD "") ∧
    routeFetchHeaders req.headers = DEFAULT_HEADERS ++
      [("Cookie", (headerGet req.headers "Cookie").getD ""),
       ("Range", (headerGet req.headers "range").getD "")] := by
  refine ⟨?_, headerGet_routeFetchHeaders_cookie req.headers, routeFetchHeaders_eq req.headers⟩
  rw [GET_fileFetch, GETinner_miss req cache now up idv hid hv hmiss,
    missOutcome_ok req idv _ cache now up hok]
  unfold afterResolve
  rw [if_neg hfmt, if_neg hm]
  repeat' split
  all_goals rfl

/-- Witness for C10: with a client cookie the fetch carries it; the
header object is the defaults plus `Cookie`/`Range`. -/
theorem c10_witness :
    (GET ⟨"GET", [("id", "abc123")], [("Cookie", "sess=1")]⟩ [] 0 goodUp).fileFetch =
      some ⟨resolvedLink goodUp, routeFetchHeaders [("Cookie", "sess=1")]⟩ ∧
    headerGet (routeFetchHeaders [("Cookie", "sess=1")]) "Cookie" = some "sess=1" := by
  have h := c10_cookie_forwarded ⟨"GET", [("id", "abc123")], [("Cookie", "sess=1")]⟩
    [] 0 goodUp "abc123" rfl (by decide) (by decide) (by decide) (by decide) (by decide)
  exact ⟨h.1, h.2.1.trans (by decide)⟩

/-- Counterexample to claim C3 as stated: in route.ts a streaming request
without an inbound Range header still produces an upstream fetch whose
headers contain `Range` with the empty string as value. -/
theorem c3_counterexample :
    ((GET req1 [] 0 goodUp).fileFetch.map (fun f => headerGet f.headers "Range")) =
      some (some "") ∧
    ¬ (((GET req1 [] 0 goodUp).fileFetch.map (fun f => headerGet f.headers "Range")) =
      some none) := by
  decide

/-- Claim C3 (amended): when the inbound request carries no Range header,
route.ts sends the upstream file fetch with an empty-valued `Range` header
(`Range: rangeHeader || ''`), while the alternate route variant deletes the
key and sends no `Range` header at all. -/
theorem c3_range_header (req : HttpRequest) (cache : CacheMap) (now : Nat)
    (up : Upstream) (idv : String)
    (hid : searchGet req.search "id" = some idv) (hv : validId idv = true)
    (hmiss : isHit cache idv now = false) (hok : resolvesOk up = true)
    (hfmt : searchGet req.search "format" ≠ some "json")
    (hm : req.method ≠ "OPTIONS")
    (hrange : headerGet req.headers "range" = none ∨
      headerGet req.headers "range" = some "") :
    (GET req cache now up).fileFetch =
      some ⟨resolvedLink up, routeFetchHeaders req.headers⟩ ∧
    headerGet (routeFetchHeaders req.headers) "Range" = some "" ∧
    headerGet (part1FetchHeaders req.headers now) "Range" = none := by
  refine ⟨?_, ?_, part1_no_range req.headers now hrange⟩
  · rw [GET_fileFetch, GETinner_miss req cache now up idv hid hv hmiss,
      missOutcome_ok req idv _ cache now up hok]
    unfold afterResolve
    rw [if_neg hfmt, if_neg hm]
    repeat' split
    all_goals rfl
  · rw [headerGet_routeFetchHeaders_range req.headers]
    rcases hrange with h | h <;> simp [h]

/-- Witness for the amended C3 on a rangeless concrete request. -/
theorem c3_witness :
    headerGet (routeFetchHeaders ([] : List (String × String))) "Range" = some "" ∧
    headerGet (part1FetchHeaders ([] : List (String × String)) 0) "Range" = none := by
  have h := c3_range_header req1 [] 0 goodUp "abc123" rfl (by decide) (by decide)
    (by decide) (by decide) (by decide) (Or.inl (by decide))
  exact ⟨h.2.1, h.2.2⟩

/-- A header lookup only depends on the lowercased name. -/
lemma headerGet_congr_name (l : List (String × String)) (n m : String)
    (h : lowerAscii n = lowerAscii m) : headerGet l n = headerGet l m := by
  unfold headerGet
  rw [h]

/-- Claim C5: an inbound `Range` header is forwarded verbatim on the upstream
file fetch; when the upstream replies 206, the client response keeps status
206 and copies `Content-Range` (and `Content-Length` when present,
case-insensitively, last value winning) over the prepared defaults. -/
theorem c5_range_forward_206 (req : HttpRequest) (cache : CacheMap) (now : Nat)
    (up : Upstream) (idv r : String) (fr : FileReply) (cr : String)
    (hid : searchGet req.search "id" = some idv) (hv : validId idv = true)
    (hmiss : isHit cache idv now = false) (hok : resolvesOk up = true)
    (hfmt : searchGet req.search "format" ≠ some "json")
    (hm : req.method ≠ "OPTIONS")
    (hrange : headerGet req.headers "range" = some r)
    (hfile : up.file = .reply fr) (hst : fr.status = 206)
    (hcr : lastLowerGet fr.headers "content-range" = some cr) :
    (GET req cache now up).fileFetch =
      some ⟨resolvedLink up, routeFetchHeaders req.headers⟩ ∧
    headerGet (routeFetchHeaders req.headers) "Range" = some r ∧
    (GET req cache now up).response.status = 206 ∧
    (GET req cache now up).response =
      .stream 206 (buildStreamHeaders (resolvedFile up) fr) fr.body ∧
    headerGet (buildStreamHeaders (resolvedFile up) fr) "Content-Range" = some cr ∧
    (∀ cl, lastLowerGet fr.headers "content-length" = some cl →
      headerGet (buildStreamHeaders (resolvedFile up) fr) "Content-Length" = some cl) := by
  have hresp : (GET req cache now up).response =
      .stream 206 (buildStreamHeaders (resolvedFile up) fr) fr.body := by
    rw [GET_response, GETinner_miss req cache now up idv hid hv hmiss,
      missOutcome_ok req idv _ cache now up hok]
    unfold afterResolve
    rw [if_neg hfmt, if_neg hm, hfile]
    simp only [hst]
    rw [if_neg (by decide)]
  have hff : (GET req cache now up).fileFetch =
      some ⟨resolvedLink up, routeFetchHeaders req.headers⟩ := by
    rw [GET_fileFetch, GETinner_miss req cache now up idv hid hv hmiss,
      missOutcome_ok req idv _ cache now up hok]
    unfold afterResolve
    rw [if_neg hfmt, if_neg hm, hfile]
    simp only [hst]
    rw [if_neg (by decide)]
  refine ⟨hff, ?_, by rw [hresp]; rfl, hresp, ?_, ?_⟩
  · rw [headerGet_routeFetchHeaders_range req.headers, hrange]
    rfl
  · unfold buildStreamHeaders
    rw [headerGet_congr_name _ "Content-Range" "content-range" (by decide),
      headerGet_copyContentHeaders fr.headers _ "content-range" (by decide) (by decide),
      hcr]
  · intro cl hcl
    unfold buildStreamHeaders
    rw [headerGet_congr_name _ "Content-Length" "content-length" (by decide),
      headerGet_copyContentHeaders fr.headers _ "content-length" (by decide) (by decide),
      hcl]

/-- Witness for C5: inbound `Range: bytes=2-5`, stubbed 206 reply with
`Content-Range: bytes 2-5/10`. -/
theorem c5_witness :
    headerGet (routeFetchHeaders [("Range", "bytes=2-5")]) "Range" =
      some "bytes=2-5" ∧
    (GET ⟨"GET", [("id", "abc123")], [("Range", "bytes=2-5")]⟩ [] 0 rangeUp).response.status
      = 206 ∧
    headerGet (buildStreamHeaders (resolvedFile rangeUp) rangeReply) "Content-Range" =
      some "bytes 2-5/10" := by
  have h := c5_range_forward_206 ⟨"GET", [("id", "abc123")], [("Range", "bytes=2-5")]⟩
    [] 0 rangeUp "abc123" "bytes=2-5" rangeReply "bytes 2-5/10" rfl (by decide)
    (by decide) (by decide) (by decide) (by decide) (by decide) rfl rfl (by decide)
  exact ⟨h.2.1, h.2.2.1, h.2.2.2.2.1⟩

/-- Counterexample to claim C2 as stated: the extractor never strips a
leading `"1"` — on `/s/1abcdefg` it returns `1abcdefg`, not `abcdefg`. -/
theorem c2_counterexample :
    extractSurlId parseJsUrl "https://www.terabox.com/s/1abcdefg" =
      some "1abcdefg" ∧
    ¬ (extractSurlId parseJsUrl "https://www.terabox.com/s/1abcdefg" =
      some "abcdefg") := by
  decide

/-- Claim C2 (amended): for a URL that parses, carries no (truthy) `surl`
query parameter and whose last path segment (query suffix stripped) is the
non-empty token `t`, the extractor returns `t` completely unchanged — no
leading-`"1"` stripping and no `/s/` special case exist in the code. -/
theorem c2_last_segment_unchanged (parseURL : String → Option JSUrl)
    (url : String) (u : JSUrl) (t : String)
    (hp : parseURL url = some u)
    (hsurl : searchParamsGet u.searchParams "surl" = none ∨
      searchParamsGet u.searchParams "surl" = some "")
    (ht : lastSegment url = t) (hne : t ≠ "") :
    extractSurlId parseURL url = some t := by
  unfold extractSurlId truthyOr
  rw [hp, ht]
  simp only
  rcases hsurl with h | h <;> rw [h] <;> simp [hne]

/-- Witness for the amended C2 on `/s/abc123` (kept verbatim). -/
theorem c2_witness :
    parseJsUrl "https://www.terabox.com/s/abc123" = some ⟨[]⟩ ∧
    lastSegment "https://www.terabox.com/s/abc123" = "abc123" ∧
    extractSurlId parseJsUrl "https://www.terabox.com/s/abc123" = some "abc123" := by
  refine ⟨by decide, by decide, ?_⟩
  exact c2_last_segment_unchanged parseJsUrl "https://www.terabox.com/s/abc123"
    ⟨[]⟩ "abc123" (by decide) (Or.inl (by decide)) (by decide) (by decide)

/-- Claim C8: when the URL constructor throws (the string does not parse),
the extractor returns `null`; no exception escapes, the embedding being a
total function into `Option`. -/
theorem c8_unparsable_none (parseURL : String → Option JSUrl) (url : String)
    (h : parseURL url = none) : extractSurlId parseURL url = none := by
  unfold extractSurlId
  rw [h]

/-- Witness for C8 at the string `"not a url"`. -/
theorem c8_witness :
    parseJsUrl "not a url" = none ∧
    extractSurlId parseJsUrl "not a url" = none :=
  ⟨by decide, c8_unparsable_none parseJsUrl "not a url" (by decide)⟩

/-- Claim C9: `GET` always yields a response; a value returned by the body is
passed through, and a value thrown anywhere in the body is turned by the
single enclosing catch into a 500 JSON response carrying the thrown message
(`Server error` for non-Error values) with CORS headers. -/
theorem c9_errors_become_500 :
    (∀ req cache now up r, (GETinner req cache now up).result = .ok r →
      (GET req cache now up).response = r) ∧
    (∀ req cache now up e, (GETinner req cache now up).result = .error e →
      (GET req cache now up).response =
        .json 500 [("error", .str (jsMessage e))] cors500Headers) ∧
    (∀ m, jsMessage (.error m) = m) ∧
    jsMessage .other = "Server error" := by
  refine ⟨?_, ?_, fun m => rfl, rfl⟩
  · intro req cache now up r h
    rw [GET_response, h]
  · intro req cache now up e h
    rw [GET_response, h]
    rfl

/-- Witness for C9: a thrown upstream HTTP error surfaces as the 500 JSON
response with the error message. -/
theorem c9_witness :
    (GETinner req1 [] 0 badInfoUp).result =
      .error (.error "HTTP error! status: 500, details: oops") ∧
    (GET req1 [] 0 badInfoUp).response =
      .json 500 [("error", .str "HTTP error! status: 500, details: oops")]
        cors500Headers := by
  refine ⟨by decide, ?_⟩
  exact c9_errors_become_500.2.1 req1 [] 0 badInfoUp
    (.error "HTTP error! status: 500, details: oops") (by decide)

end Terabox
